import Mathlib

/-!
Shallow embedding of the ordermager order-fulfillment core: the route
handlers of src/backend/routes/orders.js (createOrder, updateOrder,
setInProduction, shipLineItem, cancelOrder), the audit helper logAction of
src/backend/middleware/auth.js, and the status-recompute trigger
update_order_status of src/backend/database/init.sql.

Quantities are DECIMAL(10,2) columns in the store; the embedding represents
the stored values as integer numbers of hundredths, so 0.01 is 1 and 100.00
is 10000.  The express-validator bound isFloat min 0.01 becomes 1 <= q.
Dates and timestamps are abstract integers.  Row identities are natural
numbers handed out by per-table counters, standing for the store's fresh
UUIDs.

Numeric representation at the JavaScript boundary: node-postgres delivers
DECIMAL columns as strings (no setTypeParser is configured anywhere in the
repository), while request bodies carry JSON numbers.  Consequently in the
ship route the subtraction lineItem.quantity - lineItem.shipped_quantity
coerces both strings to numbers, whereas lineItem.shipped_quantity +
quantity concatenates the stored string with the request number.  The
embedding models the committed effect of that concatenation exactly
(pgDecStr, jsUnitsStr, concatStoredCents, jsFullyShipped below); the
IEEE-754 rounding of the numeric coercions themselves is idealized as
exact, the two-decimal granularity making it irrelevant to every
comparison modeled here.
-/

namespace OrderMager

/-- Whitespace trim of both string ends: the trim sanitizer of
express-validator applied to poNumber, partNumber and description fields.
Spelled out over the character list so that concrete stores evaluate. -/
def strTrim (s : String) : String :=
  ⟨((s.data.dropWhile Char.isWhitespace).reverse.dropWhile
      Char.isWhitespace).reverse⟩

/-- Allowed units for a line item (init.sql CHECK constraint). -/
inductive UnitKind where
  | feet
  | meters
  | pieces
deriving DecidableEq

/-- Order status enum of init.sql. -/
inductive OrderStatus where
  | pending
  | production
  | shipped
  | cancelled
deriving DecidableEq

/-- Error taxonomy: each distinct failing code path of the route handlers,
named after the kinds in section 7 of the spec.  validationError is an
express-validator rejection, notFound the missing order/item/customer
responses, conflict the duplicate-PO response, overShipment the response
of the remaining-quantity guard, txFailure a store-level constraint
violation surfaced through the catch-and-rollback path. -/
inductive ApiError where
  | validationError
  | notFound
  | conflict
  | overShipment
  | txFailure
deriving DecidableEq

/-- Row of the customers table (the fields the order routes consult). -/
structure Customer where
  id : Nat
  active : Bool
deriving DecidableEq

/-- Row of the orders table (fields the core reads or writes). -/
structure Order where
  id : Nat
  po_number : String
  customer_id : Nat
  due_date : Option Int
  quoted_ship_date : Option Int
  status : OrderStatus
  notes : Option String
  updated_at : Int
deriving DecidableEq

/-- Row of the order_line_items table. -/
structure LineItem where
  id : Nat
  order_id : Nat
  part_id : Option Nat
  part_number : String
  description : String
  colors : Option String
  quantity : Int
  unit : UnitKind
  in_production : Bool
  shipped_quantity : Int
  date_shipped : Option Int
  updated_at : Int
deriving DecidableEq

/-- Row of the shipments table. -/
structure Shipment where
  line_item_id : Nat
  quantity : Int
  ship_date : Int
  tracking_number : Option String
  notes : Option String
  created_by : Nat
deriving DecidableEq

/-- Row of the audit_log table (fields logAction writes that the claims
mention). -/
structure AuditEntry where
  user_id : Nat
  action : String
  table_name : String
  record_id : Nat
deriving DecidableEq

/-- The relational store. -/
structure DB where
  customers : List Customer
  parts : List Nat
  orders : List Order
  items : List LineItem
  shipments : List Shipment
  audit : List AuditEntry
  nextOrder : Nat
  nextItem : Nat
deriving DecidableEq

/-- Empty store holding the given customers and parts catalog. -/
def initDB (cs : List Customer) (ps : List Nat) : DB :=
  { customers := cs, parts := ps, orders := [], items := [], shipments := [],
    audit := [], nextOrder := 0, nextItem := 0 }

/-- Line items of one order (the trigger query WHERE order_id = ...). -/
def itemsOf (db : DB) (oid : Nat) : List LineItem :=
  db.items.filter (fun i => i.order_id == oid)

/-- Count of a line-item list with date_shipped set (shipped_items of the
trigger update_order_status). -/
def fullyShippedCount (l : List LineItem) : Nat :=
  (l.filter (fun i => i.date_shipped.isSome)).length

/-- Count with in_production = true and date_shipped null (production_items
of the trigger update_order_status). -/
def inProductionCount (l : List LineItem) : Nat :=
  (l.filter (fun i => i.in_production && i.date_shipped.isNone)).length

/-- The status the trigger update_order_status of init.sql computes from
the current line items of an order: shipped when every item has
date_shipped set (vacuously so for an empty set, since the SQL comparison
is shipped_items = total_items), else production when some item is
in_production and not yet shipped or some item has date_shipped set, else
pending.  The trigger never reads shipped_quantity and never checks the
current status of the order. -/
def recomputeStatus (l : List LineItem) : OrderStatus :=
  if fullyShippedCount l = l.length then .shipped
  else if 0 < inProductionCount l ∨ 0 < fullyShippedCount l then .production
  else .pending

/-- Effect of the trigger firing for a line item of order oid: the UPDATE
orders SET status statement, plus the updated_at bump of the BEFORE UPDATE
trigger on orders.  A missing order updates no row, as in the SQL. -/
def applyTrigger (db : DB) (oid : Nat) (now : Int) : DB :=
  let st := recomputeStatus (itemsOf db oid)
  { db with orders := db.orders.map (fun o =>
      if o.id == oid then { o with status := st, updated_at := now } else o) }

/-- The logAction helper of middleware/auth.js: it runs on its own pool
connection after the route's transaction has committed, and swallows any
insertion error (try/catch around the INSERT), so a failing audit sink
(ok = false) leaves the store unchanged and raises nothing. -/
def logAudit (db : DB) (ok : Bool) (e : AuditEntry) : DB :=
  if ok then { db with audit := db.audit ++ [e] } else db

/-- One requested line item of a createOrder call. -/
structure ItemReq where
  partId : Option Nat
  partNumber : String
  description : String
  colors : Option String
  quantity : Int
  unit : UnitKind
deriving DecidableEq

/-- Body of a createOrder call. -/
structure CreateReq where
  poNumber : String
  customerId : Nat
  dueDate : Option Int
  quotedShipDate : Option Int
  notes : Option String
  lineItems : List ItemReq
deriving DecidableEq

/-- express-validator checks on one line item: partNumber and description
trim to nonempty, quantity at least 0.01 (one hundredth); the unit CHECK
is enforced by the UnitKind type. -/
def validItemReq (it : ItemReq) : Bool :=
  (strTrim it.partNumber != "") && (strTrim it.description != "") &&
    decide (1 ≤ it.quantity)

/-- express-validator checks of POST orders: nonempty trimmed poNumber, at
least one line item, every item valid.  These run before the transaction
opens. -/
def validCreateReq (r : CreateReq) : Bool :=
  (strTrim r.poNumber != "") && (!r.lineItems.isEmpty) &&
    r.lineItems.all validItemReq

/-- Insert one line-item row of a createOrder call (the INSERT of the loop
body): sanitized (trimmed) part number and description, fresh id,
shipped_quantity defaulted to 0, in_production false, date_shipped null. -/
def insertItem0 (db : DB) (oid : Nat) (it : ItemReq) (now : Int) : DB :=
  let li : LineItem :=
    { id := db.nextItem, order_id := oid, part_id := it.partId,
      part_number := strTrim it.partNumber, description := strTrim it.description,
      colors := it.colors, quantity := it.quantity, unit := it.unit,
      in_production := false, shipped_quantity := 0, date_shipped := none,
      updated_at := now }
  { db with items := db.items ++ [li], nextItem := db.nextItem + 1 }

/-- The line-item insertion loop of createOrder.  Each row insert fires the
status trigger, but every firing overwrites the same status and updated_at
columns of the one new order, so only the last firing is observable; the
embedding therefore inserts the rows here and applies the trigger once
after the loop, which yields the identical final store. -/
def insertItems (db : DB) (oid : Nat) (l : List ItemReq) (now : Int) : DB :=
  match l with
  | [] => db
  | it :: rest => insertItems (insertItem0 db oid it now) oid rest now

/-- Success tail of createOrder: the order INSERT (status defaulting to
pending), the line-item insertion loop with its trigger firings, and the
post-commit logAction call. -/
def createNext (db : DB) (r : CreateReq) (userId : Nat) (now : Int)
    (auditOk : Bool) : DB × Nat :=
  let oid := db.nextOrder
  let newOrder : Order :=
    { id := oid, po_number := strTrim r.poNumber, customer_id := r.customerId,
      due_date := r.dueDate, quoted_ship_date := r.quotedShipDate,
      status := .pending, notes := r.notes, updated_at := now }
  let db1 := { db with orders := db.orders ++ [newOrder],
                       nextOrder := oid + 1 }
  let db2 := insertItems db1 oid r.lineItems now
  let db3 := applyTrigger db2 oid now
  (logAudit db3 auditOk ⟨userId, "CREATE_ORDER", "orders", oid⟩, oid)

/-- POST orders of routes/orders.js.  Order of checks as in the source:
validation, duplicate (customer_id, po_number) lookup, active-customer
lookup, then the inserts.  A line item naming a part absent from the
catalog makes its INSERT violate the part_id foreign key, which the catch
block turns into a rollback; the embedding tests that up front, which has
the same all-or-nothing net effect.  On success the new order id is
returned and logAction runs after commit. -/
def createOrder (db : DB) (r : CreateReq) (userId : Nat) (now : Int)
    (auditOk : Bool) : Except ApiError (DB × Nat) :=
  if !(validCreateReq r) then .error .validationError
  else if db.orders.any (fun o =>
      o.customer_id == r.customerId && o.po_number == strTrim r.poNumber) then
    .error .conflict
  else if !(db.customers.any (fun c =>
      c.id == r.customerId && c.active)) then
    .error .notFound
  else if r.lineItems.any (fun it =>
      it.partId.any (fun p => !(db.parts.contains p))) then
    .error .txFailure
  else
    .ok (createNext db r userId now auditOk)

/-- Body of an updateOrder call; absent fields stand for parameters the
client did not send, which the COALESCE in the UPDATE leaves unchanged. -/
structure UpdateReq where
  poNumber : Option String
  dueDate : Option Int
  quotedShipDate : Option Int
  notes : Option String
deriving DecidableEq

/-- The COALESCE row update of PUT orders: only po_number, due_date,
quoted_ship_date and notes are settable, plus the updated_at bump of the
orders trigger. -/
def orderUpd (r : UpdateReq) (po : String) (now : Int) (x : Order) : Order :=
  { x with po_number := po,
           due_date := match r.dueDate with
             | some d => some d
             | none => x.due_date,
           quoted_ship_date := match r.quotedShipDate with
             | some d => some d
             | none => x.quoted_ship_date,
           notes := match r.notes with
             | some n => some n
             | none => x.notes,
           updated_at := now }

/-- Success tail of updateOrder: the UPDATE statement and the post-commit
logAction call; the response body is the updated row. -/
def updNext (db : DB) (oid : Nat) (o0 : Order) (r : UpdateReq)
    (userId : Nat) (now : Int) (auditOk : Bool) : DB × Order :=
  let po := (r.poNumber.map strTrim).getD o0.po_number
  let db1 := { db with orders := db.orders.map (fun x =>
      if x.id == oid then orderUpd r po now x else x) }
  (logAudit db1 auditOk ⟨userId, "UPDATE_ORDER", "orders", oid⟩,
   orderUpd r po now o0)

/-- PUT orders of routes/orders.js: validation (a supplied poNumber trims
to nonempty), order lookup, then UPDATE with COALESCE on po_number,
due_date, quoted_ship_date and notes plus the updated_at bump.  The UNIQUE
(customer_id, po_number) constraint of init.sql can reject the UPDATE; the
catch path surfaces it with no row changed. -/
def updateOrder (db : DB) (oid : Nat) (r : UpdateReq) (userId : Nat)
    (now : Int) (auditOk : Bool) : Except ApiError (DB × Order) :=
  if r.poNumber.any (fun p => strTrim p == "") then .error .validationError
  else
    match db.orders.find? (fun o => o.id == oid) with
    | none => .error .notFound
    | some o0 =>
      if db.orders.any (fun o2 => o2.id != oid &&
          o2.customer_id == o0.customer_id &&
          o2.po_number == (r.poNumber.map strTrim).getD o0.po_number) then
        .error .txFailure
      else
        .ok (updNext db oid o0 r userId now auditOk)

/-- Line-item lookup shared by the production and ship routes: WHERE
id = itemId AND order_id = orderId. -/
def getLineItem (db : DB) (oid iid : Nat) : Option LineItem :=
  db.items.find? (fun i => i.id == iid && i.order_id == oid)

/-- The row update of PUT production: in_production set to true plus the
updated_at bump. -/
def prodUpd (now : Int) (i : LineItem) : LineItem :=
  { i with in_production := true, updated_at := now }

/-- Success tail of setInProduction: the UPDATE (which fires the status
trigger) and the post-commit logAction call. -/
def prodNext (db : DB) (oid iid : Nat) (li : LineItem) (userId : Nat)
    (now : Int) (auditOk : Bool) : DB × LineItem :=
  let db1 := { db with items := db.items.map (fun i =>
      if i.id == iid then prodUpd now i else i) }
  let db2 := applyTrigger db1 oid now
  (logAudit db2 auditOk
    ⟨userId, "SET_PRODUCTION", "order_line_items", iid⟩, prodUpd now li)

/-- PUT production of routes/orders.js: lookup, then UPDATE in_production
to true with the updated_at bump, which fires the status trigger. -/
def setInProduction (db : DB) (oid iid : Nat) (userId : Nat) (now : Int)
    (auditOk : Bool) : Except ApiError (DB × LineItem) :=
  match getLineItem db oid iid with
  | none => .error .notFound
  | some li => .ok (prodNext db oid iid li userId now auditOk)

/-- Body of a shipLineItem call. -/
structure ShipReq where
  quantity : Int
  shipDate : Option Int
  trackingNumber : Option String
  notes : Option String
deriving DecidableEq

/-- Lexicographic order on character lists, the comparison JavaScript
performs when < is applied to two strings. -/
def charListLt : List Char → List Char → Bool
  | [], [] => false
  | [], _ :: _ => true
  | _ :: _, [] => false
  | a :: as, b :: bs =>
    if a < b then true else if b < a then false else charListLt as bs

/-- JavaScript >= on two strings: the negation of the lexicographic <. -/
def jsStrGe (a b : String) : Bool := !(charListLt a.data b.data)

/-- Text node-postgres hands the route for a DECIMAL(10,2) column holding
c hundredths: the integer part's digits, a dot, and exactly two fractional
digits, as in 0.00 or 100.00. -/
def pgDecStr (c : Int) : String :=
  ⟨Nat.toDigits 10 (c.toNat / 100) ++
    '.' :: [Nat.digitChar (c.toNat / 10 % 10), Nat.digitChar (c.toNat % 10)]⟩

/-- Text JavaScript produces when a whole-unit number q / 100 is coerced
to a string by the + operator: its decimal digits, with no dot. -/
def jsUnitsStr (q : Int) : String := ⟨Nat.toDigits 10 (q.toNat / 100)⟩

/-- The value of newShippedQuantity in the route: the stored string for
shipped hundredths concatenated with the request number's text. -/
def concatStr (shipped q : Int) : String := pgDecStr shipped ++ jsUnitsStr q

/-- The isFullyShipped test of the route: newShippedQuantity is the
concatenated string, lineItem.quantity the stored string, so the >= is
JavaScript string comparison, not numeric. -/
def jsFullyShipped (li : LineItem) (q : Int) : Bool :=
  jsStrGe (concatStr li.shipped_quantity q) (pgDecStr li.quantity)

/-- Hundredths the UPDATE commits for shipped_quantity: the concatenated
string x.yz followed by the d digits of n = q / 100 reads as the number
shipped / 100 + n / 10 ^ (d + 2), that is shipped + n / 10 ^ d hundredths;
casting it into DECIMAL(10,2) rounds half away from zero to whole
hundredths, and since 0 < n < 10 ^ d the round adds one hundredth exactly
when 2 * n reaches 10 ^ d. -/
def concatStoredCents (shipped q : Int) : Int :=
  let n := q.toNat / 100
  let d := (Nat.toDigits 10 n).length
  shipped + (if 10 ^ d ≤ 2 * n then 1 else 0)

/-- A JavaScript number as an exact fraction of hundredths, numerator over
denominator; kept unreduced so witnesses evaluate by kernel reduction. -/
structure JsNumber where
  num : Int
  den : Int
deriving DecidableEq

/-- The response field remainingQuantity: lineItem.quantity minus
newShippedQuantity coerces both strings to numbers, so its exact value is
quantity - (shipped + n / 10 ^ d) hundredths with n = q / 100 the
requested units and d the count of their digits. -/
def jsRemaining (li : LineItem) (q : Int) : JsNumber :=
  let n := q.toNat / 100
  let d := (Nat.toDigits 10 n).length
  { num := (li.quantity - li.shipped_quantity) * 10 ^ d - (n : Int),
    den := 10 ^ d }

/-- Response body of a successful shipLineItem call. -/
structure ShipResult where
  lineItem : LineItem
  shippedQuantity : Int
  remainingQuantity : JsNumber
deriving DecidableEq

/-- The line-item row update of POST ship: shipped_quantity set to the
committed reading of the concatenated newShippedQuantity string,
date_shipped set through CASE WHEN the string comparison isFullyShipped
holds (else kept), updated_at bumped. -/
def shipUpd (li : LineItem) (q effDate now : Int) (i : LineItem) :
    LineItem :=
  { i with shipped_quantity := concatStoredCents li.shipped_quantity q,
           date_shipped :=
             if jsFullyShipped li q then some effDate
             else i.date_shipped,
           updated_at := now }

/-- Success tail of shipLineItem: the shipment INSERT and line-item UPDATE
of the transaction (the UPDATE fires the status trigger), then the
post-commit logAction call and the response body. -/
def shipNext (db : DB) (oid iid : Nat) (li : LineItem) (r : ShipReq)
    (userId : Nat) (today now : Int) (auditOk : Bool) : DB × ShipResult :=
  let effDate := r.shipDate.getD today
  let sh : Shipment :=
    { line_item_id := iid, quantity := r.quantity, ship_date := effDate,
      tracking_number := r.trackingNumber, notes := r.notes,
      created_by := userId }
  let db1 := { db with shipments := db.shipments ++ [sh],
                       items := db.items.map (fun i =>
                         if i.id == iid then shipUpd li r.quantity effDate now i
                         else i) }
  let db2 := applyTrigger db1 oid now
  (logAudit db2 auditOk ⟨userId, "SHIP_ITEM", "order_line_items", iid⟩,
   { lineItem := shipUpd li r.quantity effDate now li,
     shippedQuantity := r.quantity,
     remainingQuantity := jsRemaining li r.quantity })

/-- POST ship of routes/orders.js: validation (quantity at least 0.01),
lookup by id and order_id, the remaining-quantity guard (a numeric
comparison: the subtraction coerced both stored strings), then the success
tail shipNext inside one transaction; today stands for the current date
that defaults an omitted shipDate.  A request quantity that is not a whole
number of units prints with a dot, so the concatenated newShippedQuantity
string holds two dots and the UPDATE fails on the numeric cast: the catch
rolls the transaction back and answers 500 with the store unchanged. -/
def shipLineItem (db : DB) (oid iid : Nat) (r : ShipReq) (userId : Nat)
    (today now : Int) (auditOk : Bool) :
    Except ApiError (DB × ShipResult) :=
  if r.quantity < 1 then .error .validationError
  else
    match getLineItem db oid iid with
    | none => .error .notFound
    | some li =>
      if li.quantity - li.shipped_quantity < r.quantity then
        .error .overShipment
      else if r.quantity % 100 ≠ 0 then .error .txFailure
      else
        .ok (shipNext db oid iid li r userId today now auditOk)

/-- Success tail of cancelOrder: the soft-delete UPDATE and the
post-commit logAction call. -/
def cancelNext (db : DB) (oid : Nat) (userId : Nat) (now : Int)
    (auditOk : Bool) : DB :=
  let db1 := { db with orders := db.orders.map (fun o =>
      if o.id == oid then { o with status := .cancelled, updated_at := now }
      else o) }
  logAudit db1 auditOk ⟨userId, "DELETE_ORDER", "orders", oid⟩

/-- DELETE orders of routes/orders.js: soft delete, setting status to
cancelled with the updated_at bump; no line item or shipment row is
touched and no trigger fires (the trigger is on order_line_items). -/
def cancelOrder (db : DB) (oid : Nat) (userId : Nat) (now : Int)
    (auditOk : Bool) : Except ApiError DB :=
  match db.orders.find? (fun o => o.id == oid) with
  | none => .error .notFound
  | some _ => .ok (cancelNext db oid userId now auditOk)

/-- One core operation, with its request body, acting user, clock values
and audit-sink availability. -/
inductive Op where
  | create (r : CreateReq) (userId : Nat) (now : Int) (auditOk : Bool)
  | ship (oid iid : Nat) (r : ShipReq) (userId : Nat) (today now : Int)
      (auditOk : Bool)
  | setProd (oid iid : Nat) (userId : Nat) (now : Int) (auditOk : Bool)
  | update (oid : Nat) (r : UpdateReq) (userId : Nat) (now : Int)
      (auditOk : Bool)
  | cancel (oid : Nat) (userId : Nat) (now : Int) (auditOk : Bool)
deriving DecidableEq

/-- Run one operation, returning the resulting store or the error. -/
def runOp (db : DB) : Op → Except ApiError DB
  | .create r u now a => (createOrder db r u now a).map Prod.fst
  | .ship oid iid r u today now a =>
      (shipLineItem db oid iid r u today now a).map Prod.fst
  | .setProd oid iid u now a =>
      (setInProduction db oid iid u now a).map Prod.fst
  | .update oid r u now a => (updateOrder db oid r u now a).map Prod.fst
  | .cancel oid u now a => cancelOrder db oid u now a

/-- Observable store after one operation: a failed call rolls back and
leaves the store unchanged. -/
def applyOp (db : DB) (op : Op) : DB :=
  match runOp db op with
  | .ok db1 => db1
  | .error _ => db

/-- Observable store after a sequence of operations. -/
def applyOps (db : DB) (l : List Op) : DB :=
  l.foldl applyOp db

/-- Sum of the shipment quantities recorded against one line item. -/
def sumShipped (db : DB) (iid : Nat) : Int :=
  ((db.shipments.filter (fun s => s.line_item_id == iid)).map
    (fun s => s.quantity)).sum

/-- Modelled from the spec: the order-status aggregation rule as section
4.4 of the spec states it, for comparison with recomputeStatus of the
source trigger: shipped when every line item is fully shipped, else
production when some item is in production or some item has positive
shipped quantity, else pending, with an empty item set pending. -/
def specOrderStatus (l : List LineItem) : OrderStatus :=
  if l.isEmpty then .pending
  else if l.all (fun i => i.date_shipped.isSome) then .shipped
  else if l.any (fun i => i.in_production || decide (0 < i.shipped_quantity))
    then .production
  else .pending

/-- Structural part of the store invariant: quantity bounds, freshness of
the id counters and distinctness of line-item ids, and referential
bounds.  The shipped_quantity upper bound survives the string-concat
semantics because a successful ship raises the stored value by at most
one hundredth while the guard had left at least a whole unit of room. -/
structure Inv0 (db : DB) : Prop where
  shipped_nonneg : ∀ i ∈ db.items, 0 ≤ i.shipped_quantity
  shipped_le : ∀ i ∈ db.items, i.shipped_quantity ≤ i.quantity
  qty_pos : ∀ i ∈ db.items, 0 < i.quantity
  item_id_lt : ∀ i ∈ db.items, i.id < db.nextItem
  ids_nodup : (db.items.map (fun i => i.id)).Nodup
  ship_ref_lt : ∀ s ∈ db.shipments, s.line_item_id < db.nextItem
  order_id_lt : ∀ o ∈ db.orders, o.id < db.nextOrder
  item_order_lt : ∀ i ∈ db.items, i.order_id < db.nextOrder

/-- Full store invariant: the structural part plus the status fact that
every order either is cancelled or carries exactly the status the trigger
computes from its current line items. -/
structure Inv (db : DB) extends Inv0 db : Prop where
  status_ok : ∀ o ∈ db.orders,
    o.status = .cancelled ∨ o.status = recomputeStatus (itemsOf db o.id)

deriving instance DecidableEq for Except

/-- Sample customer list used by the concrete witnesses: one active
customer with id 7. -/
def custSample : List Customer := [⟨7, true⟩]

/-- Sample createOrder request: one line item of 100.00 pieces. -/
def reqSample : CreateReq :=
  { poNumber := "PO-2024-001", customerId := 7, dueDate := none,
    quotedShipDate := none, notes := none,
    lineItems := [{ partId := none, partNumber := "WG-001",
                    description := "Wire Guard Standard", colors := none,
                    quantity := 10000, unit := .pieces }] }

/-- Ship request for q hundredths on ship date d. -/
def shipSample (q d : Int) : ShipReq :=
  { quantity := q, shipDate := some d, trackingNumber := none, notes := none }

/-- Store after creating the sample order (order id 0, line item id 0). -/
def dbCreated : DB := applyOps (initDB custSample []) [.create reqSample 1 0 true]

/-- Create the sample order, then ship 40.00 of its 100.00 line item. -/
def opsSample : List Op :=
  [.create reqSample 1 0 true, .ship 0 0 (shipSample 4000 5) 1 5 6 true]

/-- Store reached by opsSample. -/
def dbShip40 : DB := applyOps (initDB custSample []) opsSample

/-- The sample line item as it stands in dbShip40: the UPDATE wrote the
string 0.0040, which DECIMAL(10,2) rounds back to 0.00, so the 40.00
shipment leaves shipped_quantity at zero. -/
def itemShip40 : LineItem :=
  { id := 0, order_id := 0, part_id := none, part_number := "WG-001",
    description := "Wire Guard Standard", colors := none, quantity := 10000,
    unit := .pieces, in_production := false, shipped_quantity := 0,
    date_shipped := none, updated_at := 6 }

/-- Store after creating the sample order and cancelling it. -/
def dbCancelled : DB :=
  applyOps (initDB custSample []) [.create reqSample 1 0 true, .cancel 0 1 2 true]

/-- Store after creating the sample order and shipping 40.00 with the
audit sink unreachable. -/
def dbShipNoAudit : DB :=
  applyOps (initDB custSample [])
    [.create reqSample 1 0 true, .ship 0 0 (shipSample 4000 5) 1 5 6 false]

/-- The sample order as it stands in dbShip40. -/
def orderShip40 : Order :=
  { id := 0, po_number := "PO-2024-001", customer_id := 7, due_date := none,
    quoted_ship_date := none, status := .pending, notes := none,
    updated_at := 6 }

/-- The sample order as it stands in dbCreated. -/
def orderCreated : Order :=
  { id := 0, po_number := "PO-2024-001", customer_id := 7, due_date := none,
    quoted_ship_date := none, status := .pending, notes := none,
    updated_at := 0 }

/-- Create the sample order, then ship 50.00 of its 100.00 line item:
the string 0.0050 rounds half away from zero to 0.01, so the store ends
with shipped_quantity one hundredth while no item is date-shipped or in
production. -/
def opsShip50 : List Op :=
  [.create reqSample 1 0 true, .ship 0 0 (shipSample 5000 5) 1 5 6 true]

/-- Store reached by opsShip50. -/
def dbShip50 : DB := applyOps (initDB custSample []) opsShip50

/-- Create the sample order, then ship the full 100.00 in one call: the
concatenated string 0.00100 stays lexicographically below 100.00, so
isFullyShipped is false and date_shipped is never set, while the stored
shipped_quantity rounds back to 0.00. -/
def opsShipAll : List Op :=
  [.create reqSample 1 0 true, .ship 0 0 (shipSample 10000 5) 1 5 6 true]

/-- Store reached by opsShipAll. -/
def dbShipAll : DB := applyOps (initDB custSample []) opsShipAll

/-- Response body of the sample 40.00 shipment: remainingQuantity is the
numeric coercion 100.00 - 0.0040, exactly 99.996 units, that is 999960 /
100 hundredths. -/
def resShip40 : ShipResult :=
  { lineItem := itemShip40, shippedQuantity := 4000,
    remainingQuantity := ⟨999960, 100⟩ }

/-- Sample updateOrder request touching due_date and notes only. -/
def updSample : UpdateReq :=
  { poNumber := none, dueDate := some 99, quotedShipDate := none,
    notes := some "rush order" }

/-- Store after applying updSample to the sample order. -/
def dbUpdated : DB := applyOp dbCreated (.update 0 updSample 1 5 true)

/-- The sample order as it stands in dbUpdated. -/
def orderUpdated : Order :=
  { id := 0, po_number := "PO-2024-001", customer_id := 7,
    due_date := some 99, quoted_ship_date := none, status := .pending,
    notes := some "rush order", updated_at := 5 }

/-- The sample line item after one setInProduction call at time 3. -/
def itemProd1 : LineItem :=
  { id := 0, order_id := 0, part_id := none, part_number := "WG-001",
    description := "Wire Guard Standard", colors := none, quantity := 10000,
    unit := .pieces, in_production := true, shipped_quantity := 0,
    date_shipped := none, updated_at := 3 }

/-- The sample line item after a second setInProduction call at time 4. -/
def itemProd2 : LineItem := { itemProd1 with updated_at := 4 }

/-- Store after one setInProduction call on the sample order. -/
def dbProd1 : DB := applyOp dbCreated (.setProd 0 0 1 3 true)

/-- Store after a second setInProduction call. -/
def dbProd2 : DB := applyOp dbProd1 (.setProd 0 0 1 4 true)

/-! Projection lemmas: which store components each building block leaves
untouched. -/

theorem applyTrigger_items (db : DB) (oid : Nat) (now : Int) :
    (applyTrigger db oid now).items = db.items := rfl

theorem applyTrigger_shipments (db : DB) (oid : Nat) (now : Int) :
    (applyTrigger db oid now).shipments = db.shipments := rfl

theorem applyTrigger_nextItem (db : DB) (oid : Nat) (now : Int) :
    (applyTrigger db oid now).nextItem = db.nextItem := rfl

theorem applyTrigger_nextOrder (db : DB) (oid : Nat) (now : Int) :
    (applyTrigger db oid now).nextOrder = db.nextOrder := rfl

theorem logAudit_items (db : DB) (ok : Bool) (e : AuditEntry) :
    (logAudit db ok e).items = db.items := by
  unfold logAudit; split <;> rfl

theorem logAudit_shipments (db : DB) (ok : Bool) (e : AuditEntry) :
    (logAudit db ok e).shipments = db.shipments := by
  unfold logAudit; split <;> rfl

theorem logAudit_orders (db : DB) (ok : Bool) (e : AuditEntry) :
    (logAudit db ok e).orders = db.orders := by
  unfold logAudit; split <;> rfl

theorem logAudit_nextItem (db : DB) (ok : Bool) (e : AuditEntry) :
    (logAudit db ok e).nextItem = db.nextItem := by
  unfold logAudit; split <;> rfl

theorem logAudit_nextOrder (db : DB) (ok : Bool) (e : AuditEntry) :
    (logAudit db ok e).nextOrder = db.nextOrder := by
  unfold logAudit; split <;> rfl

theorem logAudit_customers (db : DB) (ok : Bool) (e : AuditEntry) :
    (logAudit db ok e).customers = db.customers := by
  unfold logAudit; split <;> rfl

theorem logAudit_parts (db : DB) (ok : Bool) (e : AuditEntry) :
    (logAudit db ok e).parts = db.parts := by
  unfold logAudit; split <;> rfl

theorem applyTrigger_audit (db : DB) (oid : Nat) (now : Int) :
    (applyTrigger db oid now).audit = db.audit := rfl

theorem insertItems_audit (l : List ItemReq) (db : DB) (oid : Nat)
    (now : Int) : (insertItems db oid l now).audit = db.audit := by
  induction l generalizing db with
  | nil => rfl
  | cons it rest ih => exact ih _

theorem insertItems_orders (l : List ItemReq) (db : DB) (oid : Nat)
    (now : Int) : (insertItems db oid l now).orders = db.orders := by
  induction l generalizing db with
  | nil => rfl
  | cons it rest ih => exact ih _

theorem insertItems_shipments (l : List ItemReq) (db : DB) (oid : Nat)
    (now : Int) : (insertItems db oid l now).shipments = db.shipments := by
  induction l generalizing db with
  | nil => rfl
  | cons it rest ih => exact ih _

theorem insertItems_nextOrder (l : List ItemReq) (db : DB) (oid : Nat)
    (now : Int) : (insertItems db oid l now).nextOrder = db.nextOrder := by
  induction l generalizing db with
  | nil => rfl
  | cons it rest ih => exact ih _

/-! Generic list helpers about the by-id row-update pattern of the UPDATE
statements. -/

/-- A row update keyed on id and preserving id leaves the id column
unchanged. -/
theorem map_upd_ids (g : LineItem → LineItem) (hg : ∀ i, (g i).id = i.id)
    (iid : Nat) (l : List LineItem) :
    (l.map (fun i => if i.id == iid then g i else i)).map (fun i => i.id)
      = l.map (fun i => i.id) := by
  rw [List.map_map]
  apply List.map_congr_left
  intro a _
  by_cases h : a.id = iid <;> simp [h, hg]

/-- A row update keyed on id and preserving order_id commutes with the
per-order filter. -/
theorem filter_upd (g : LineItem → LineItem)
    (hg : ∀ i, (g i).order_id = i.order_id) (iid oid : Nat)
    (l : List LineItem) :
    (l.map (fun i => if i.id == iid then g i else i)).filter
        (fun i => i.order_id == oid)
      = (l.filter (fun i => i.order_id == oid)).map
        (fun i => if i.id == iid then g i else i) := by
  rw [List.filter_map]
  congr 1
  apply List.filter_congr
  intro a _
  by_cases h : a.id == iid <;> simp [Function.comp, h, hg]

/-- A row update keyed on id and preserving the looked-up columns commutes
with find? on those columns. -/
theorem find?_upd (g : LineItem → LineItem)
    (hgid : ∀ i, (g i).id = i.id) (hgo : ∀ i, (g i).order_id = i.order_id)
    (iid oid : Nat) (l : List LineItem) :
    (l.map (fun i => if i.id == iid then g i else i)).find?
        (fun i => i.id == iid && i.order_id == oid)
      = (l.find? (fun i => i.id == iid && i.order_id == oid)).map
        (fun i => if i.id == iid then g i else i) := by
  induction l with
  | nil => rfl
  | cons a t ih =>
    have hpred : ((if a.id == iid then g a else a).id == iid &&
        (if a.id == iid then g a else a).order_id == oid)
        = (a.id == iid && a.order_id == oid) := by
      by_cases h : a.id == iid <;> simp [h, hgid, hgo]
    cases h2 : (a.id == iid && a.order_id == oid) with
    | true => simp only [List.map_cons, List.find?, hpred, h2, Option.map_some']
    | false => simp only [List.map_cons, List.find?, hpred, h2, ih]

/-- Distinct ids make the id column injective on rows. -/
theorem item_eq_of_id_eq {l : List LineItem}
    (h : (l.map (fun i => i.id)).Nodup) {i j : LineItem}
    (hi : i ∈ l) (hj : j ∈ l) (hij : i.id = j.id) : i = j :=
  List.inj_on_of_nodup_map h hi hj hij

/-- Unpacking a successful line-item lookup. -/
theorem getLineItem_mem {db : DB} {oid iid : Nat} {li : LineItem}
    (h : getLineItem db oid iid = some li) :
    li ∈ db.items ∧ li.id = iid ∧ li.order_id = oid := by
  unfold getLineItem at h
  have h1 := List.mem_of_find?_eq_some h
  have h2 := List.find?_some h
  simp only [Bool.and_eq_true, beq_iff_eq] at h2
  exact ⟨h1, h2.1, h2.2⟩

/-- The committed shipped_quantity never drops: the rounding carry is
nonnegative. -/
theorem concatStoredCents_ge (shipped q : Int) :
    shipped ≤ concatStoredCents shipped q := by
  simp only [concatStoredCents]
  split <;> omega

/-- The committed shipped_quantity rises by at most one hundredth: the
concatenated digits only add a fraction below one hundredth before the
DECIMAL(10,2) round. -/
theorem concatStoredCents_le (shipped q : Int) :
    concatStoredCents shipped q ≤ shipped + 1 := by
  simp only [concatStoredCents]
  split <;> omega

/-! Success-case characterizations of the five route handlers. -/

theorem ship_ok {db : DB} {oid iid : Nat} {r : ShipReq} {u : Nat}
    {today now : Int} {a : Bool} {out : DB × ShipResult}
    (h : shipLineItem db oid iid r u today now a = .ok out) :
    ∃ li, getLineItem db oid iid = some li ∧ 1 ≤ r.quantity ∧
      r.quantity ≤ li.quantity - li.shipped_quantity ∧
      r.quantity % 100 = 0 ∧
      out = shipNext db oid iid li r u today now a := by
  unfold shipLineItem at h
  split at h
  · simp at h
  · split at h
    · simp at h
    · next li heq =>
      split at h
      · simp at h
      · next hq =>
        split at h
        · simp at h
        · next hw =>
          refine ⟨li, heq, by omega, by omega, by omega, ?_⟩
          exact (Except.ok.inj h).symm

theorem prod_ok {db : DB} {oid iid u : Nat} {now : Int} {a : Bool}
    {out : DB × LineItem}
    (h : setInProduction db oid iid u now a = .ok out) :
    ∃ li, getLineItem db oid iid = some li ∧
      out = prodNext db oid iid li u now a := by
  unfold setInProduction at h
  split at h
  · simp at h
  · next li heq => exact ⟨li, heq, (Except.ok.inj h).symm⟩

theorem create_ok {db : DB} {r : CreateReq} {u : Nat} {now : Int}
    {a : Bool} {out : DB × Nat}
    (h : createOrder db r u now a = .ok out) :
    validCreateReq r = true ∧ out = createNext db r u now a := by
  unfold createOrder at h
  split at h
  · simp at h
  · next hv =>
    split at h
    · simp at h
    · split at h
      · simp at h
      · split at h
        · simp at h
        · exact ⟨by simpa using hv, (Except.ok.inj h).symm⟩

theorem upd_ok {db : DB} {oid : Nat} {r : UpdateReq} {u : Nat} {now : Int}
    {a : Bool} {out : DB × Order}
    (h : updateOrder db oid r u now a = .ok out) :
    ∃ o0, db.orders.find? (fun o => o.id == oid) = some o0 ∧
      out = updNext db oid o0 r u now a := by
  unfold updateOrder at h
  split at h
  · simp at h
  · split at h
    · simp at h
    · next o0 heq =>
      split at h
      · simp at h
      · exact ⟨o0, heq, (Except.ok.inj h).symm⟩

theorem cancel_ok {db : DB} {oid u : Nat} {now : Int} {a : Bool} {db2 : DB}
    (h : cancelOrder db oid u now a = .ok db2) :
    ∃ o0, db.orders.find? (fun o => o.id == oid) = some o0 ∧
      db2 = cancelNext db oid u now a := by
  unfold cancelOrder at h
  split at h
  · simp at h
  · next o0 heq => exact ⟨o0, heq, (Except.ok.inj h).symm⟩

/-! Invariant preservation. -/

theorem itemsOf_applyTrigger (db : DB) (oid : Nat) (now : Int) (x : Nat) :
    itemsOf (applyTrigger db oid now) x = itemsOf db x := rfl

theorem applyTrigger_orders (db : DB) (oid : Nat) (now : Int) :
    (applyTrigger db oid now).orders = db.orders.map (fun o =>
      if o.id == oid then
        { o with status := recomputeStatus (itemsOf db oid),
                 updated_at := now }
      else o) := rfl

theorem inv_logAudit {db : DB} {ok : Bool} {e : AuditEntry} (h : Inv db) :
    Inv (logAudit db ok e) := by
  obtain ⟨⟨h1, h2, h3, h6, h7, h8, h9, h10⟩, hs⟩ := h
  unfold logAudit
  split
  · exact ⟨⟨h1, h2, h3, h6, h7, h8, h9, h10⟩, hs⟩
  · exact ⟨⟨h1, h2, h3, h6, h7, h8, h9, h10⟩, hs⟩

theorem inv_applyTrigger {db : DB} {oid : Nat} {now : Int} (h0 : Inv0 db)
    (hs : ∀ o ∈ db.orders, o.id ≠ oid →
      o.status = .cancelled ∨ o.status = recomputeStatus (itemsOf db o.id)) :
    Inv (applyTrigger db oid now) := by
  obtain ⟨h1, h2, h3, h6, h7, h8, h9, h10⟩ := h0
  refine ⟨⟨h1, h2, h3, h6, h7, h8, ?_, h10⟩, ?_⟩
  · intro o' ho'
    have ho2 : o' ∈ db.orders.map (fun o =>
        if o.id == oid then
          { o with status := recomputeStatus (itemsOf db oid),
                   updated_at := now }
        else o) := ho'
    rw [List.mem_map] at ho2
    obtain ⟨o, ho, rfl⟩ := ho2
    split <;> exact h9 o ho
  · intro o' ho'
    have ho2 : o' ∈ db.orders.map (fun o =>
        if o.id == oid then
          { o with status := recomputeStatus (itemsOf db oid),
                   updated_at := now }
        else o) := ho'
    rw [List.mem_map] at ho2
    obtain ⟨o, ho, rfl⟩ := ho2
    rw [itemsOf_applyTrigger]
    split
    · next hcond =>
      right
      have hoid : o.id = oid := by simpa using hcond
      show recomputeStatus (itemsOf db oid) = recomputeStatus (itemsOf db o.id)
      rw [hoid]
    · next hcond =>
      have hoid : o.id ≠ oid := by simpa using hcond
      exact hs o ho hoid

theorem inv_shipNext {db : DB} {oid iid : Nat} {li : LineItem} {r : ShipReq}
    {u : Nat} {today now : Int} {a : Bool}
    (hInv : Inv db) (heq : getLineItem db oid iid = some li)
    (hq : 1 ≤ r.quantity)
    (hrem : r.quantity ≤ li.quantity - li.shipped_quantity) :
    Inv (shipNext db oid iid li r u today now a).1 := by
  obtain ⟨hmem, hid, hliord⟩ := getLineItem_mem heq
  obtain ⟨⟨h1, h2, h3, h6, h7, h8, h9, h10⟩, hs⟩ := hInv
  show Inv (logAudit (applyTrigger
    { db with
      shipments := db.shipments ++
        [{ line_item_id := iid, quantity := r.quantity,
           ship_date := r.shipDate.getD today,
           tracking_number := r.trackingNumber, notes := r.notes,
           created_by := u }],
      items := db.items.map (fun i =>
        if i.id == iid then shipUpd li r.quantity (r.shipDate.getD today) now i
        else i) } oid now) a ⟨u, "SHIP_ITEM", "order_line_items", iid⟩)
  obtain ⟨db1, hdb1⟩ : ∃ x : DB, x =
    { db with
      shipments := db.shipments ++
        [{ line_item_id := iid, quantity := r.quantity,
           ship_date := r.shipDate.getD today,
           tracking_number := r.trackingNumber, notes := r.notes,
           created_by := u }],
      items := db.items.map (fun i =>
        if i.id == iid then shipUpd li r.quantity (r.shipDate.getD today) now i
        else i) } := ⟨_, rfl⟩
  rw [← hdb1]
  have hshp : db1.shipments = db.shipments ++
      [{ line_item_id := iid, quantity := r.quantity,
         ship_date := r.shipDate.getD today,
         tracking_number := r.trackingNumber, notes := r.notes,
         created_by := u }] := by rw [hdb1]
  have hitm : db1.items = db.items.map (fun i =>
      if i.id == iid then shipUpd li r.quantity (r.shipDate.getD today) now i
      else i) := by rw [hdb1]
  have hord : db1.orders = db.orders := by rw [hdb1]
  have hni : db1.nextItem = db.nextItem := by rw [hdb1]
  have hno : db1.nextOrder = db.nextOrder := by rw [hdb1]
  have hupd : ∀ i : LineItem, i ∈ db.items → i.id = iid → i = li :=
    fun i hi hiid => item_eq_of_id_eq h7 hi hmem (by rw [hiid, hid])
  have hmain : ∀ i' ∈ db.items.map (fun i =>
      if i.id == iid then shipUpd li r.quantity (r.shipDate.getD today) now i
      else i),
      i' = shipUpd li r.quantity (r.shipDate.getD today) now li ∨
        (i' ∈ db.items ∧ i'.id ≠ iid) := by
    intro i' hi'
    rw [List.mem_map] at hi'
    obtain ⟨i, hi, rfl⟩ := hi'
    by_cases hc : i.id = iid
    · left
      rw [hupd i hi hc, if_pos (show (li.id == iid) = true by simpa using hid)]
    · right
      rw [if_neg (show ¬ (i.id == iid) = true by simpa using hc)]
      exact ⟨hi, hc⟩
  apply inv_logAudit
  apply inv_applyTrigger
  · refine ⟨?_, ?_, ?_, ?_, ?_, ?_, ?_, ?_⟩
    · rw [hitm]
      intro i' hi'
      rcases hmain i' hi' with rfl | ⟨hold, _⟩
      · show 0 ≤ concatStoredCents li.shipped_quantity r.quantity
        have hge := concatStoredCents_ge li.shipped_quantity r.quantity
        have := h1 li hmem
        omega
      · exact h1 i' hold
    · rw [hitm]
      intro i' hi'
      rcases hmain i' hi' with rfl | ⟨hold, _⟩
      · show concatStoredCents li.shipped_quantity r.quantity ≤ li.quantity
        have hle := concatStoredCents_le li.shipped_quantity r.quantity
        omega
      · exact h2 i' hold
    · rw [hitm]
      intro i' hi'
      rcases hmain i' hi' with rfl | ⟨hold, _⟩
      · exact h3 li hmem
      · exact h3 i' hold
    · rw [hitm, hni]
      intro i' hi'
      rcases hmain i' hi' with rfl | ⟨hold, _⟩
      · exact h6 li hmem
      · exact h6 i' hold
    · rw [hitm, map_upd_ids (shipUpd li r.quantity (r.shipDate.getD today) now)
        (fun i => rfl) iid db.items]
      exact h7
    · rw [hshp, hni]
      intro s hs'
      rw [List.mem_append] at hs'
      rcases hs' with hsold | hsnew
      · exact h8 s hsold
      · rw [List.mem_singleton] at hsnew
        subst hsnew
        exact hid ▸ h6 li hmem
    · rw [hord, hno]
      exact h9
    · rw [hitm, hno]
      intro i' hi'
      rcases hmain i' hi' with rfl | ⟨hold, _⟩
      · exact h10 li hmem
      · exact h10 i' hold
  · intro o ho hne
    rw [hord] at ho
    rcases hs o ho with hcan | hstat
    · exact Or.inl hcan
    · right
      have hio : itemsOf db1 o.id = itemsOf db o.id := by
        unfold itemsOf
        rw [hitm, filter_upd (shipUpd li r.quantity (r.shipDate.getD today) now)
          (fun i => rfl) iid o.id db.items]
        have hfix : ∀ x ∈ db.items.filter (fun i => i.order_id == o.id),
            (if x.id == iid then
              shipUpd li r.quantity (r.shipDate.getD today) now x
            else x) = x := by
          intro x hx
          rw [List.mem_filter] at hx
          obtain ⟨hxmem, hxord⟩ := hx
          have hxo : x.order_id = o.id := by simpa using hxord
          rw [if_neg]
          intro hxc
          have hxid : x.id = iid := by simpa using hxc
          have hxli : x = li := hupd x hxmem hxid
          exact hne (by rw [← hxo, hxli, hliord])
        rw [List.map_congr_left hfix, List.map_id']
      rw [hio]
      exact hstat

theorem inv_prodNext {db : DB} {oid iid : Nat} {li : LineItem} {u : Nat}
    {now : Int} {a : Bool}
    (hInv : Inv db) (heq : getLineItem db oid iid = some li) :
    Inv (prodNext db oid iid li u now a).1 := by
  obtain ⟨hmem, hid, hliord⟩ := getLineItem_mem heq
  obtain ⟨⟨h1, h2, h3, h6, h7, h8, h9, h10⟩, hs⟩ := hInv
  show Inv (logAudit (applyTrigger
    { db with items := db.items.map (fun i =>
        if i.id == iid then prodUpd now i else i) } oid now) a
    ⟨u, "SET_PRODUCTION", "order_line_items", iid⟩)
  obtain ⟨db1, hdb1⟩ : ∃ x : DB, x =
    { db with items := db.items.map (fun i =>
        if i.id == iid then prodUpd now i else i) } := ⟨_, rfl⟩
  rw [← hdb1]
  have hitm : db1.items = db.items.map (fun i =>
      if i.id == iid then prodUpd now i else i) := by rw [hdb1]
  have hord : db1.orders = db.orders := by rw [hdb1]
  have hni : db1.nextItem = db.nextItem := by rw [hdb1]
  have hno : db1.nextOrder = db.nextOrder := by rw [hdb1]
  have hupd : ∀ i : LineItem, i ∈ db.items → i.id = iid → i = li :=
    fun i hi hiid => item_eq_of_id_eq h7 hi hmem (by rw [hiid, hid])
  have hmain : ∀ i' ∈ db.items.map (fun i =>
      if i.id == iid then prodUpd now i else i),
      i' = prodUpd now li ∨ (i' ∈ db.items ∧ i'.id ≠ iid) := by
    intro i' hi'
    rw [List.mem_map] at hi'
    obtain ⟨i, hi, rfl⟩ := hi'
    by_cases hc : i.id = iid
    · left
      rw [hupd i hi hc, if_pos (show (li.id == iid) = true by simpa using hid)]
    · right
      rw [if_neg (show ¬ (i.id == iid) = true by simpa using hc)]
      exact ⟨hi, hc⟩
  apply inv_logAudit
  apply inv_applyTrigger
  · refine ⟨?_, ?_, ?_, ?_, ?_, ?_, ?_, ?_⟩
    · rw [hitm]
      intro i' hi'
      rcases hmain i' hi' with rfl | ⟨hold, _⟩
      · exact h1 li hmem
      · exact h1 i' hold
    · rw [hitm]
      intro i' hi'
      rcases hmain i' hi' with rfl | ⟨hold, _⟩
      · exact h2 li hmem
      · exact h2 i' hold
    · rw [hitm]
      intro i' hi'
      rcases hmain i' hi' with rfl | ⟨hold, _⟩
      · exact h3 li hmem
      · exact h3 i' hold
    · rw [hitm, hni]
      intro i' hi'
      rcases hmain i' hi' with rfl | ⟨hold, _⟩
      · exact h6 li hmem
      · exact h6 i' hold
    · rw [hitm, map_upd_ids (prodUpd now) (fun i => rfl) iid db.items]
      exact h7
    · rw [hni]
      have hshp : db1.shipments = db.shipments := by rw [hdb1]
      rw [hshp]
      exact h8
    · rw [hord, hno]
      exact h9
    · rw [hitm, hno]
      intro i' hi'
      rcases hmain i' hi' with rfl | ⟨hold, _⟩
      · exact h10 li hmem
      · exact h10 i' hold
  · intro o ho hne
    rw [hord] at ho
    rcases hs o ho with hcan | hstat
    · exact Or.inl hcan
    · right
      have hio : itemsOf db1 o.id = itemsOf db o.id := by
        unfold itemsOf
        rw [hitm, filter_upd (prodUpd now) (fun i => rfl) iid o.id db.items]
        have hfix : ∀ x ∈ db.items.filter (fun i => i.order_id == o.id),
            (if x.id == iid then prodUpd now x else x) = x := by
          intro x hx
          rw [List.mem_filter] at hx
          obtain ⟨hxmem, hxord⟩ := hx
          have hxo : x.order_id = o.id := by simpa using hxord
          rw [if_neg]
          intro hxc
          have hxid : x.id = iid := by simpa using hxc
          have hxli : x = li := hupd x hxmem hxid
          exact hne (by rw [← hxo, hxli, hliord])
        rw [List.map_congr_left hfix, List.map_id']
      rw [hio]
      exact hstat

theorem inv_updNext {db : DB} {oid : Nat} {o0 : Order} {r : UpdateReq}
    {u : Nat} {now : Int} {a : Bool} (hInv : Inv db) :
    Inv (updNext db oid o0 r u now a).1 := by
  obtain ⟨⟨h1, h2, h3, h6, h7, h8, h9, h10⟩, hs⟩ := hInv
  apply inv_logAudit
  refine ⟨⟨h1, h2, h3, h6, h7, h8, ?_, h10⟩, ?_⟩
  · intro o' ho'
    have ho2 : o' ∈ db.orders.map (fun x =>
        if x.id == oid then
          orderUpd r ((r.poNumber.map strTrim).getD o0.po_number) now x
        else x) := ho'
    rw [List.mem_map] at ho2
    obtain ⟨x, hx, rfl⟩ := ho2
    split <;> exact h9 x hx
  · intro o' ho'
    have ho2 : o' ∈ db.orders.map (fun x =>
        if x.id == oid then
          orderUpd r ((r.poNumber.map strTrim).getD o0.po_number) now x
        else x) := ho'
    rw [List.mem_map] at ho2
    obtain ⟨x, hx, rfl⟩ := ho2
    split <;> exact hs x hx

theorem inv_cancelNext {db : DB} {oid u : Nat} {now : Int} {a : Bool}
    (hInv : Inv db) : Inv (cancelNext db oid u now a) := by
  obtain ⟨⟨h1, h2, h3, h6, h7, h8, h9, h10⟩, hs⟩ := hInv
  apply inv_logAudit
  refine ⟨⟨h1, h2, h3, h6, h7, h8, ?_, h10⟩, ?_⟩
  · intro o' ho'
    have ho2 : o' ∈ db.orders.map (fun o =>
        if o.id == oid then { o with status := .cancelled, updated_at := now }
        else o) := ho'
    rw [List.mem_map] at ho2
    obtain ⟨x, hx, rfl⟩ := ho2
    split <;> exact h9 x hx
  · intro o' ho'
    have ho2 : o' ∈ db.orders.map (fun o =>
        if o.id == oid then { o with status := .cancelled, updated_at := now }
        else o) := ho'
    rw [List.mem_map] at ho2
    obtain ⟨x, hx, rfl⟩ := ho2
    split
    · exact Or.inl rfl
    · exact hs x hx

theorem itemsOf_insertItem0_ne {db : DB} {oid : Nat} {it : ItemReq}
    {now : Int} {x : Nat} (hx : x ≠ oid) :
    itemsOf (insertItem0 db oid it now) x = itemsOf db x := by
  simp only [itemsOf, insertItem0, List.filter_append]
  have hcond : (oid == x) = false := by
    simp only [beq_eq_false_iff_ne, ne_eq]
    exact fun h => hx h.symm
  simp [List.filter_cons, hcond]

theorem itemsOf_insertItems_ne (l : List ItemReq) {db : DB} {oid : Nat}
    {now : Int} {x : Nat} (hx : x ≠ oid) :
    itemsOf (insertItems db oid l now) x = itemsOf db x := by
  induction l generalizing db with
  | nil => rfl
  | cons it rest ih =>
    show itemsOf (insertItems (insertItem0 db oid it now) oid rest now) x
      = itemsOf db x
    rw [ih, itemsOf_insertItem0_ne hx]

theorem inv0_insertItem0 {db : DB} {oid : Nat} {it : ItemReq} {now : Int}
    (h0 : Inv0 db) (hv : validItemReq it = true)
    (hoid : oid < db.nextOrder) : Inv0 (insertItem0 db oid it now) := by
  obtain ⟨h1, h2, h3, h6, h7, h8, h9, h10⟩ := h0
  have hq : 1 ≤ it.quantity := by
    unfold validItemReq at hv
    simp only [Bool.and_eq_true, decide_eq_true_eq] at hv
    exact hv.2
  have hmm : ∀ i' ∈ (insertItem0 db oid it now).items,
      i' ∈ db.items ∨ i' =
        { id := db.nextItem, order_id := oid, part_id := it.partId,
          part_number := strTrim it.partNumber,
          description := strTrim it.description, colors := it.colors,
          quantity := it.quantity, unit := it.unit, in_production := false,
          shipped_quantity := 0, date_shipped := none,
          updated_at := now } := by
    intro i' hi'
    rw [show (insertItem0 db oid it now).items = db.items ++
        [{ id := db.nextItem, order_id := oid, part_id := it.partId,
           part_number := strTrim it.partNumber,
           description := strTrim it.description, colors := it.colors,
           quantity := it.quantity, unit := it.unit, in_production := false,
           shipped_quantity := 0, date_shipped := none,
           updated_at := now }] from rfl,
      List.mem_append, List.mem_singleton] at hi'
    exact hi'
  refine ⟨?_, ?_, ?_, ?_, ?_, ?_, ?_, ?_⟩
  · intro i' hi'
    rcases hmm i' hi' with hold | rfl
    · exact h1 i' hold
    · exact le_refl 0
  · intro i' hi'
    rcases hmm i' hi' with hold | rfl
    · exact h2 i' hold
    · show (0 : Int) ≤ it.quantity
      omega
  · intro i' hi'
    rcases hmm i' hi' with hold | rfl
    · exact h3 i' hold
    · show (0 : Int) < it.quantity
      omega
  · intro i' hi'
    rcases hmm i' hi' with hold | rfl
    · show i'.id < db.nextItem + 1
      exact Nat.lt_succ_of_lt (h6 i' hold)
    · show db.nextItem < db.nextItem + 1
      exact Nat.lt_succ_self _
  · show ((db.items ++
      [({ id := db.nextItem, order_id := oid, part_id := it.partId,
          part_number := strTrim it.partNumber,
          description := strTrim it.description, colors := it.colors,
          quantity := it.quantity, unit := it.unit, in_production := false,
          shipped_quantity := 0, date_shipped := none,
          updated_at := now } : LineItem)]).map (fun i => i.id)).Nodup
    rw [List.map_append]
    refine List.Nodup.append h7 (List.nodup_singleton _) ?_
    intro y hy1 hy2
    rw [List.mem_map] at hy1
    obtain ⟨i, hi, rfl⟩ := hy1
    have hyid : i.id = db.nextItem := by simpa using hy2
    have := h6 i hi
    omega
  · show ∀ s ∈ db.shipments, s.line_item_id < db.nextItem + 1
    intro s hs
    exact Nat.lt_succ_of_lt (h8 s hs)
  · exact h9
  · intro i' hi'
    rcases hmm i' hi' with hold | rfl
    · exact h10 i' hold
    · show oid < db.nextOrder
      exact hoid

theorem inv0_insertItems (l : List ItemReq) {db : DB} {oid : Nat}
    {now : Int} (h0 : Inv0 db) (hv : ∀ it ∈ l, validItemReq it = true)
    (hoid : oid < db.nextOrder) : Inv0 (insertItems db oid l now) := by
  induction l generalizing db with
  | nil => exact h0
  | cons it rest ih =>
    show Inv0 (insertItems (insertItem0 db oid it now) oid rest now)
    exact ih (inv0_insertItem0 h0 (hv it (List.mem_cons_self it rest)) hoid)
      (fun x hx => hv x (List.mem_cons_of_mem it hx)) hoid

theorem inv_createNext {db : DB} {r : CreateReq} {u : Nat} {now : Int}
    {a : Bool} (hInv : Inv db) (hv : validCreateReq r = true) :
    Inv (createNext db r u now a).1 := by
  obtain ⟨h0, hs⟩ := hInv
  have hvitems : ∀ it ∈ r.lineItems, validItemReq it = true := by
    unfold validCreateReq at hv
    simp only [Bool.and_eq_true, List.all_eq_true] at hv
    exact hv.2
  show Inv (logAudit (applyTrigger (insertItems
    ({ db with
       orders := db.orders ++
         [{ id := db.nextOrder, po_number := strTrim r.poNumber,
            customer_id := r.customerId, due_date := r.dueDate,
            quoted_ship_date := r.quotedShipDate, status := .pending,
            notes := r.notes, updated_at := now }],
       nextOrder := db.nextOrder + 1 }) db.nextOrder r.lineItems now)
    db.nextOrder now) a ⟨u, "CREATE_ORDER", "orders", db.nextOrder⟩)
  obtain ⟨db1, hdb1⟩ : ∃ x : DB, x =
    { db with
      orders := db.orders ++
        [{ id := db.nextOrder, po_number := strTrim r.poNumber,
           customer_id := r.customerId, due_date := r.dueDate,
           quoted_ship_date := r.quotedShipDate, status := .pending,
           notes := r.notes, updated_at := now }],
      nextOrder := db.nextOrder + 1 } := ⟨_, rfl⟩
  rw [← hdb1]
  obtain ⟨h1, h2, h3, h6, h7, h8, h9, h10⟩ := h0
  have hitm : db1.items = db.items := by rw [hdb1]
  have hord : db1.orders = db.orders ++
      [{ id := db.nextOrder, po_number := strTrim r.poNumber,
         customer_id := r.customerId, due_date := r.dueDate,
         quoted_ship_date := r.quotedShipDate, status := .pending,
         notes := r.notes, updated_at := now }] := by rw [hdb1]
  have hno : db1.nextOrder = db.nextOrder + 1 := by rw [hdb1]
  have hinv1 : Inv0 db1 := by
    refine ⟨?_, ?_, ?_, ?_, ?_, ?_, ?_, ?_⟩
    · rw [hitm]; exact h1
    · rw [hitm]; exact h2
    · rw [hitm]; exact h3
    · rw [hitm]
      have : db1.nextItem = db.nextItem := by rw [hdb1]
      rw [this]
      exact h6
    · rw [hitm]; exact h7
    · have hshp : db1.shipments = db.shipments := by rw [hdb1]
      have hni : db1.nextItem = db.nextItem := by rw [hdb1]
      rw [hshp, hni]
      exact h8
    · rw [hord, hno]
      intro o ho
      rw [List.mem_append, List.mem_singleton] at ho
      rcases ho with hold | rfl
      · exact Nat.lt_succ_of_lt (h9 o hold)
      · exact Nat.lt_succ_self _
    · rw [hitm, hno]
      intro i hi
      exact Nat.lt_succ_of_lt (h10 i hi)
  have hoid1 : db.nextOrder < db1.nextOrder := by
    rw [hno]; exact Nat.lt_succ_self _
  apply inv_logAudit
  apply inv_applyTrigger
  · exact inv0_insertItems r.lineItems hinv1 hvitems hoid1
  · intro o ho hne
    rw [insertItems_orders, hord, List.mem_append, List.mem_singleton] at ho
    rcases ho with hold | rfl
    · have hio : itemsOf (insertItems db1 db.nextOrder r.lineItems now) o.id
          = itemsOf db o.id := by
        rw [itemsOf_insertItems_ne r.lineItems hne]
        unfold itemsOf
        rw [hitm]
      rw [hio]
      exact hs o hold
    · exact absurd rfl hne

theorem inv_runOp {db db2 : DB} {op : Op} (hInv : Inv db)
    (h : runOp db op = .ok db2) : Inv db2 := by
  cases op with
  | create r u now a =>
    simp only [runOp] at h
    cases hc : createOrder db r u now a with
    | error e => rw [hc] at h; exact Except.noConfusion h
    | ok out =>
      rw [hc] at h
      obtain ⟨hv, hout⟩ := create_ok hc
      have h2 : out.1 = db2 := Except.ok.inj h
      rw [← h2, hout]
      exact inv_createNext hInv hv
  | ship oid iid r u today now a =>
    simp only [runOp] at h
    cases hc : shipLineItem db oid iid r u today now a with
    | error e => rw [hc] at h; exact Except.noConfusion h
    | ok out =>
      rw [hc] at h
      obtain ⟨li, heq, hq, hrem, hwhole, hout⟩ := ship_ok hc
      have h2 : out.1 = db2 := Except.ok.inj h
      rw [← h2, hout]
      exact inv_shipNext hInv heq hq hrem
  | setProd oid iid u now a =>
    simp only [runOp] at h
    cases hc : setInProduction db oid iid u now a with
    | error e => rw [hc] at h; exact Except.noConfusion h
    | ok out =>
      rw [hc] at h
      obtain ⟨li, heq, hout⟩ := prod_ok hc
      have h2 : out.1 = db2 := Except.ok.inj h
      rw [← h2, hout]
      exact inv_prodNext hInv heq
  | update oid r u now a =>
    simp only [runOp] at h
    cases hc : updateOrder db oid r u now a with
    | error e => rw [hc] at h; exact Except.noConfusion h
    | ok out =>
      rw [hc] at h
      obtain ⟨o0, heq, hout⟩ := upd_ok hc
      have h2 : out.1 = db2 := Except.ok.inj h
      rw [← h2, hout]
      exact inv_updNext hInv
  | cancel oid u now a =>
    simp only [runOp] at h
    cases hc : cancelOrder db oid u now a with
    | error e => rw [hc] at h; exact Except.noConfusion h
    | ok out =>
      rw [hc] at h
      obtain ⟨o0, heq, hout⟩ := cancel_ok hc
      have h2 : out = db2 := Except.ok.inj h
      rw [← h2, hout]
      exact inv_cancelNext hInv

theorem inv_applyOp {db : DB} {op : Op} (hInv : Inv db) :
    Inv (applyOp db op) := by
  unfold applyOp
  split
  · next db1 heq => exact inv_runOp hInv heq
  · exact hInv

theorem inv_applyOps {db : DB} (l : List Op) (hInv : Inv db) :
    Inv (applyOps db l) := by
  induction l generalizing db with
  | nil => exact hInv
  | cons op rest ih => exact ih (inv_applyOp hInv)

theorem inv_initDB (cs : List Customer) (ps : List Nat) :
    Inv (initDB cs ps) := by
  refine ⟨⟨?_, ?_, ?_, ?_, by simp [initDB], ?_, ?_, ?_⟩, ?_⟩ <;>
    intro x hx <;> exact absurd hx (List.not_mem_nil x)

theorem inv_reachable (cs : List Customer) (ps : List Nat) (l : List Op) :
    Inv (applyOps (initDB cs ps) l) :=
  inv_applyOps l (inv_initDB cs ps)

/-! Projections of the success tails. -/

theorem shipNext_items (db : DB) (oid iid : Nat) (li : LineItem)
    (r : ShipReq) (u : Nat) (today now : Int) (a : Bool) :
    (shipNext db oid iid li r u today now a).1.items
      = db.items.map (fun i =>
          if i.id == iid then shipUpd li r.quantity (r.shipDate.getD today) now i
          else i) := by
  simp only [shipNext, logAudit_items, applyTrigger_items]

theorem prodNext_items (db : DB) (oid iid : Nat) (li : LineItem) (u : Nat)
    (now : Int) (a : Bool) :
    (prodNext db oid iid li u now a).1.items
      = db.items.map (fun i => if i.id == iid then prodUpd now i else i) := by
  simp only [prodNext, logAudit_items, applyTrigger_items]

theorem prodNext_snd (db : DB) (oid iid : Nat) (li : LineItem) (u : Nat)
    (now : Int) (a : Bool) :
    (prodNext db oid iid li u now a).2 = prodUpd now li := rfl

theorem prodNext_shipments (db : DB) (oid iid : Nat) (li : LineItem)
    (u : Nat) (now : Int) (a : Bool) :
    (prodNext db oid iid li u now a).1.shipments = db.shipments := by
  simp only [prodNext, logAudit_shipments, applyTrigger_shipments]

theorem createNext_items (db : DB) (r : CreateReq) (u : Nat) (now : Int)
    (a : Bool) :
    (createNext db r u now a).1.items =
      (insertItems
        { db with
          orders := db.orders ++
            [{ id := db.nextOrder, po_number := strTrim r.poNumber,
               customer_id := r.customerId, due_date := r.dueDate,
               quoted_ship_date := r.quotedShipDate, status := .pending,
               notes := r.notes, updated_at := now }],
          nextOrder := db.nextOrder + 1 } db.nextOrder r.lineItems now).items := by
  simp only [createNext, logAudit_items, applyTrigger_items]

theorem updNext_items (db : DB) (oid : Nat) (o0 : Order) (r : UpdateReq)
    (u : Nat) (now : Int) (a : Bool) :
    (updNext db oid o0 r u now a).1.items = db.items := by
  simp only [updNext, logAudit_items]

theorem updNext_shipments (db : DB) (oid : Nat) (o0 : Order) (r : UpdateReq)
    (u : Nat) (now : Int) (a : Bool) :
    (updNext db oid o0 r u now a).1.shipments = db.shipments := by
  simp only [updNext, logAudit_shipments]

theorem updNext_orders (db : DB) (oid : Nat) (o0 : Order) (r : UpdateReq)
    (u : Nat) (now : Int) (a : Bool) :
    (updNext db oid o0 r u now a).1.orders
      = db.orders.map (fun x =>
          if x.id == oid then
            orderUpd r ((r.poNumber.map strTrim).getD o0.po_number) now x
          else x) := by
  simp only [updNext, logAudit_orders]

theorem updNext_snd (db : DB) (oid : Nat) (o0 : Order) (r : UpdateReq)
    (u : Nat) (now : Int) (a : Bool) :
    (updNext db oid o0 r u now a).2
      = orderUpd r ((r.poNumber.map strTrim).getD o0.po_number) now o0 := rfl

theorem cancelNext_items (db : DB) (oid u : Nat) (now : Int) (a : Bool) :
    (cancelNext db oid u now a).items = db.items := by
  simp only [cancelNext, logAudit_items]

theorem updNext_customers (db : DB) (oid : Nat) (o0 : Order) (r : UpdateReq)
    (u : Nat) (now : Int) (a : Bool) :
    (updNext db oid o0 r u now a).1.customers = db.customers := by
  simp only [updNext, logAudit_customers]

theorem updNext_parts (db : DB) (oid : Nat) (o0 : Order) (r : UpdateReq)
    (u : Nat) (now : Int) (a : Bool) :
    (updNext db oid o0 r u now a).1.parts = db.parts := by
  simp only [updNext, logAudit_parts]

theorem updNext_nextOrder (db : DB) (oid : Nat) (o0 : Order) (r : UpdateReq)
    (u : Nat) (now : Int) (a : Bool) :
    (updNext db oid o0 r u now a).1.nextOrder = db.nextOrder := by
  simp only [updNext, logAudit_nextOrder]

theorem updNext_nextItem (db : DB) (oid : Nat) (o0 : Order) (r : UpdateReq)
    (u : Nat) (now : Int) (a : Bool) :
    (updNext db oid o0 r u now a).1.nextItem = db.nextItem := by
  simp only [updNext, logAudit_nextItem]

/-! Claim theorems. -/

/-- C1: the quantity ledger the claim states does not hold of the code.
Creating an order with one 100.00-piece line item and shipping 40.00 of
it commits a 40.00 Shipment row, so the shipment sum for the item is
40.00, yet the committed shipped_quantity is 0.00: the route's
lineItem.shipped_quantity + quantity concatenated the stored string 0.00
with the number 40 into 0.0040, which DECIMAL(10,2) rounds back to 0.00.
The sum of Shipment rows therefore differs from shipped_quantity in a
reachable store. -/
theorem C1_quantity_ledger_violated :
    runOp dbCreated (.ship 0 0 (shipSample 4000 5) 1 5 6 true)
        = .ok dbShip40 ∧
    dbShip40.shipments.map (fun s => s.quantity) = [4000] ∧
    sumShipped dbShip40 0 = 4000 ∧
    dbShip40.items.map (fun i => i.id) = [0] ∧
    dbShip40.items.map (fun i => i.shipped_quantity) = [0] ∧
    concatStr 0 4000 = "0.0040" := by decide

/-- C2: in any reachable store, a ship request strictly above the
remaining quantity of the addressed line item fails with the OverShipment
error and the whole store is unchanged: no Shipment row is inserted and
every field of the line item keeps its value. -/
theorem C2_overshipment_rejected (cs : List Customer) (ps : List Nat)
    (l : List Op) (oid iid : Nat) (li : LineItem) (r : ShipReq) (u : Nat)
    (today now : Int) (a : Bool)
    (hfound : getLineItem (applyOps (initDB cs ps) l) oid iid = some li)
    (hover : li.quantity - li.shipped_quantity < r.quantity) :
    shipLineItem (applyOps (initDB cs ps) l) oid iid r u today now a
        = .error .overShipment ∧
      applyOp (applyOps (initDB cs ps) l) (.ship oid iid r u today now a)
        = applyOps (initDB cs ps) l := by
  obtain ⟨hmem, hid, hord⟩ := getLineItem_mem hfound
  have hle := (inv_reachable cs ps l).toInv0.shipped_le li hmem
  have hq : ¬ r.quantity < 1 := by omega
  have hship : shipLineItem (applyOps (initDB cs ps) l) oid iid r u today
      now a = .error .overShipment := by
    unfold shipLineItem
    rw [if_neg hq, hfound]
    show (if li.quantity - li.shipped_quantity < r.quantity then
        Except.error ApiError.overShipment
      else if r.quantity % 100 ≠ 0 then Except.error ApiError.txFailure
      else Except.ok (shipNext (applyOps (initDB cs ps) l) oid iid li r u
        today now a)) = Except.error ApiError.overShipment
    rw [if_pos hover]
  refine ⟨hship, ?_⟩
  unfold applyOp
  simp only [runOp, hship, Except.map]

/-- Witness for C2: shipping 107.00 when 100.00 remains is rejected. -/
theorem C2_overshipment_rejected_witness :
    getLineItem dbShip40 0 0 = some itemShip40 ∧
    itemShip40.quantity - itemShip40.shipped_quantity < (10700 : Int) ∧
    (shipLineItem dbShip40 0 0 (shipSample 10700 9) 1 9 10 true
        = .error .overShipment ∧
      applyOp dbShip40 (.ship 0 0 (shipSample 10700 9) 1 9 10 true)
        = dbShip40) :=
  ⟨by decide, by decide,
   C2_overshipment_rejected custSample [] opsSample 0 0 itemShip40
     (shipSample 10700 9) 1 9 10 true (by decide) (by decide)⟩

/-- C4 counterexample: after creating an order with one 100.00-piece line
item and shipping 50.00 of it, the committed shipped_quantity is 0.01
(the concatenated string 0.0050 rounds half away from zero) with the item
neither date-shipped nor in production; the stored status is pending, as
the trigger recomputes, although the pure function stated by the claim
maps that line-item set to production because a shipped_quantity is
positive: the trigger never reads shipped_quantity. -/
theorem C4_counterexample :
    dbShip50.orders.map (fun o => o.status) = [OrderStatus.pending] ∧
    dbShip50.items.map (fun i => i.shipped_quantity) = [1] ∧
    dbShip50.items.map (fun i => (i.in_production, i.date_shipped))
      = [(false, none)] ∧
    specOrderStatus (itemsOf dbShip50 0) = .production ∧
    recomputeStatus (itemsOf dbShip50 0) = .pending := by decide

/-- C4 amended: after every sequence of core operations, every order
either is cancelled or carries exactly the status the trigger function
recomputeStatus assigns to its current line items: shipped when every item
has date_shipped set, else production when some item is in production and
not yet date-shipped or some item has date_shipped set, else pending;
partial shipped_quantity alone does not affect the status. -/
theorem C4_amended_status_matches_trigger (cs : List Customer)
    (ps : List Nat) (l : List Op) (o : Order)
    (ho : o ∈ (applyOps (initDB cs ps) l).orders) :
    o.status = .cancelled ∨
      o.status = recomputeStatus (itemsOf (applyOps (initDB cs ps) l) o.id) :=
  (inv_reachable cs ps l).status_ok o ho

/-- Witness for the amended C4 at the sample store. -/
theorem C4_amended_status_matches_trigger_witness :
    orderShip40 ∈ dbShip40.orders ∧
    (orderShip40.status = .cancelled ∨
      orderShip40.status = recomputeStatus (itemsOf dbShip40 orderShip40.id)) :=
  ⟨by decide,
   C4_amended_status_matches_trigger custSample [] opsSample orderShip40
     (by decide)⟩

/-- C5 at the failing input: cancelling the sample order stores status
cancelled, but a following setInProduction on its line item fires the
trigger, whose unconditional UPDATE overwrites cancelled with production;
the claim that recomputation never moves a status away from cancelled does
not hold of the code. -/
theorem C5_recompute_overwrites_cancelled :
    dbCancelled.orders.map (fun o => o.status) = [OrderStatus.cancelled] ∧
    (applyOp dbCancelled (.setProd 0 0 1 3 true)).orders.map
        (fun o => o.status) = [OrderStatus.production] := by decide

/-- C6: an otherwise valid createOrder whose (customer, poNumber) pair
already exists fails with the Conflict error; a createOrder with an
invalid line item fails with ValidationError before anything runs; and
every failing createOrder leaves the store exactly unchanged, so no order
or line-item row from the call persists. -/
theorem C6_create_conflict_and_atomicity (db : DB) (r : CreateReq) (u : Nat)
    (now : Int) (a : Bool) :
    (validCreateReq r = true →
      (∃ o ∈ db.orders, o.customer_id = r.customerId ∧
        o.po_number = strTrim r.poNumber) →
      createOrder db r u now a = .error .conflict) ∧
    ((∃ it ∈ r.lineItems, validItemReq it = false) →
      createOrder db r u now a = .error .validationError) ∧
    (∀ e, createOrder db r u now a = .error e →
      applyOp db (.create r u now a) = db) := by
  refine ⟨?_, ?_, ?_⟩
  · intro hv hdup
    unfold createOrder
    split
    · next hcond => exact absurd hv (by simpa using hcond)
    · split
      · rfl
      · next hany =>
        obtain ⟨o, ho, hcust, hpo⟩ := hdup
        exact absurd (List.any_eq_true.mpr ⟨o, ho, by simp [hcust, hpo]⟩) hany
  · intro hbad
    obtain ⟨it, hit, hitbad⟩ := hbad
    unfold createOrder
    split
    · rfl
    · next hcond =>
      have hv : validCreateReq r = true := by simpa using hcond
      unfold validCreateReq at hv
      simp only [Bool.and_eq_true, List.all_eq_true] at hv
      have := hv.2 it hit
      rw [hitbad] at this
      exact Bool.noConfusion this
  · intro e he
    unfold applyOp
    simp only [runOp, he, Except.map]

/-- Witness for C6: re-submitting the sample createOrder against the store
already holding it is rejected with Conflict and changes nothing. -/
theorem C6_create_conflict_and_atomicity_witness :
    createOrder dbCreated reqSample 1 4 true = .error .conflict ∧
    applyOp dbCreated (.create reqSample 1 4 true) = dbCreated := by
  have h := C6_create_conflict_and_atomicity dbCreated reqSample 1 4 true
  have h1 := h.1 (by decide) ⟨orderCreated, by decide, by decide, by decide⟩
  exact ⟨h1, h.2.2 .conflict h1⟩

/-- C7: the claim that date_shipped is set (to the sent ship date) when
cumulative shipments reach the ordered quantity does not hold of the code.
Shipping the full 100.00 of the 100.00-piece line item in one call
succeeds and commits the 100.00 Shipment row, yet date_shipped stays NULL:
isFullyShipped compares the concatenated string 0.00100 with the stored
string 100.00 by JavaScript string order, where 0.00100 is below 100.00,
so the CASE WHEN keeps the old NULL (and shipped_quantity rounds back to
0.00). -/
theorem C7_date_shipped_never_set :
    runOp dbCreated (.ship 0 0 (shipSample 10000 5) 1 5 6 true)
        = .ok dbShipAll ∧
    dbShipAll.shipments.map (fun s => s.quantity) = [10000] ∧
    dbShipAll.items.map (fun i => i.date_shipped) = [none] ∧
    dbShipAll.items.map (fun i => i.shipped_quantity) = [0] ∧
    (getLineItem dbCreated 0 0).map (fun li => jsFullyShipped li 10000)
        = some false ∧
    concatStr 0 10000 = "0.00100" := by decide

theorem logAudit_false (db : DB) (e : AuditEntry) : logAudit db false e = db :=
  rfl

theorem logAudit_true_audit (db : DB) (e : AuditEntry) :
    (logAudit db true e).audit = db.audit ++ [e] := rfl

/-- The guards of shipLineItem ignore the audit flag: runs with the sink
up and down fail identically, or both reach the success tail. -/
theorem shipLineItem_audit_cases (db : DB) (oid iid : Nat) (r : ShipReq)
    (u : Nat) (today now : Int) :
    (∃ e, shipLineItem db oid iid r u today now true = .error e ∧
          shipLineItem db oid iid r u today now false = .error e) ∨
    (∃ li, getLineItem db oid iid = some li ∧
      shipLineItem db oid iid r u today now true
        = .ok (shipNext db oid iid li r u today now true) ∧
      shipLineItem db oid iid r u today now false
        = .ok (shipNext db oid iid li r u today now false)) := by
  unfold shipLineItem
  by_cases h1 : r.quantity < 1
  · rw [if_pos h1, if_pos h1]
    exact Or.inl ⟨_, rfl, rfl⟩
  · rw [if_neg h1, if_neg h1]
    cases hg : getLineItem db oid iid with
    | none => exact Or.inl ⟨.notFound, rfl, rfl⟩
    | some li =>
      by_cases h2 : li.quantity - li.shipped_quantity < r.quantity
      · refine Or.inl ⟨.overShipment, ?_, ?_⟩ <;>
        · show (if li.quantity - li.shipped_quantity < r.quantity then
              Except.error ApiError.overShipment else _) = _
          rw [if_pos h2]
      · by_cases h3 : r.quantity % 100 ≠ 0
        · refine Or.inl ⟨.txFailure, ?_, ?_⟩ <;>
          · show (if li.quantity - li.shipped_quantity < r.quantity then
                Except.error ApiError.overShipment
              else if r.quantity % 100 ≠ 0 then Except.error ApiError.txFailure
              else _) = _
            rw [if_neg h2, if_pos h3]
        · refine Or.inr ⟨li, rfl, ?_, ?_⟩ <;>
          · show (if li.quantity - li.shipped_quantity < r.quantity then
                Except.error ApiError.overShipment
              else if r.quantity % 100 ≠ 0 then Except.error ApiError.txFailure
              else _) = _
            rw [if_neg h2, if_neg h3]

/-- The guards of createOrder ignore the audit flag likewise. -/
theorem createOrder_audit_cases (db : DB) (rc : CreateReq) (u : Nat)
    (now : Int) :
    (∃ e, createOrder db rc u now true = .error e ∧
          createOrder db rc u now false = .error e) ∨
    (createOrder db rc u now true = .ok (createNext db rc u now true) ∧
     createOrder db rc u now false = .ok (createNext db rc u now false)) := by
  unfold createOrder
  by_cases h1 : (!(validCreateReq rc)) = true
  · rw [if_pos h1, if_pos h1]
    exact Or.inl ⟨_, rfl, rfl⟩
  · rw [if_neg h1, if_neg h1]
    by_cases h2 : (db.orders.any fun o => o.customer_id == rc.customerId &&
        o.po_number == strTrim rc.poNumber) = true
    · rw [if_pos h2, if_pos h2]
      exact Or.inl ⟨_, rfl, rfl⟩
    · rw [if_neg h2, if_neg h2]
      by_cases h3 : (!(db.customers.any fun c => c.id == rc.customerId &&
          c.active)) = true
      · rw [if_pos h3, if_pos h3]
        exact Or.inl ⟨_, rfl, rfl⟩
      · rw [if_neg h3, if_neg h3]
        by_cases h4 : (rc.lineItems.any fun it => it.partId.any fun p =>
            !(db.parts.contains p)) = true
        · rw [if_pos h4, if_pos h4]
          exact Or.inl ⟨_, rfl, rfl⟩
        · rw [if_neg h4, if_neg h4]
          exact Or.inr ⟨rfl, rfl⟩

theorem createNext_audit (db : DB) (rc : CreateReq) (u : Nat) (now : Int) :
    (createNext db rc u now false).1.audit = db.audit ∧
    (createNext db rc u now true).1.audit
      = db.audit ++ [⟨u, "CREATE_ORDER", "orders", db.nextOrder⟩] := by
  constructor
  · simp only [createNext, logAudit_false, applyTrigger_audit,
      insertItems_audit]
  · simp only [createNext, logAudit_true_audit, applyTrigger_audit,
      insertItems_audit]

/-- C8 counterexample: with the audit sink unreachable, the sample
shipment still commits (the Shipment row persists and the line item gets
its post-UPDATE state) while no SHIP_ITEM audit entry exists anywhere:
the mutation committed without its audit entry, because logAction runs on
its own connection after COMMIT and swallows its error. -/
theorem C8_counterexample :
    dbShipNoAudit.shipments.length = 1 ∧
    dbShipNoAudit.audit = dbCreated.audit ∧
    (∀ e ∈ dbShipNoAudit.audit, e.action ≠ "SHIP_ITEM") ∧
    getLineItem dbShipNoAudit 0 0 = some itemShip40 := by decide

/-- C8 amended: the audit entry is written only after the mutation's
transaction has committed, on a separate connection, and an audit-sink
failure is swallowed: shipLineItem and createOrder succeed or fail
identically whether or not the sink is reachable, the committed data rows
are identical either way, and the only difference is the audit entry
appended after commit when the sink is up. -/
theorem C8_amended_audit_after_commit (db : DB) (oid iid : Nat) (r : ShipReq)
    (u : Nat) (today now : Int) (rc : CreateReq) :
    (∀ e, shipLineItem db oid iid r u today now false = .error e ↔
          shipLineItem db oid iid r u today now true = .error e) ∧
    (∀ db1 res, shipLineItem db oid iid r u today now true = .ok (db1, res) →
      ∃ db0, shipLineItem db oid iid r u today now false = .ok (db0, res) ∧
        db0.orders = db1.orders ∧ db0.items = db1.items ∧
        db0.shipments = db1.shipments ∧ db0.customers = db1.customers ∧
        db0.parts = db1.parts ∧ db0.nextOrder = db1.nextOrder ∧
        db0.nextItem = db1.nextItem ∧ db0.audit = db.audit ∧
        db1.audit = db.audit ++ [⟨u, "SHIP_ITEM", "order_line_items", iid⟩]) ∧
    (∀ db1 noid, createOrder db rc u now true = .ok (db1, noid) →
      ∃ db0, createOrder db rc u now false = .ok (db0, noid) ∧
        db0.orders = db1.orders ∧ db0.items = db1.items ∧
        db0.shipments = db1.shipments ∧ db0.audit = db.audit ∧
        db1.audit = db.audit ++ [⟨u, "CREATE_ORDER", "orders", noid⟩]) := by
  refine ⟨?_, ?_, ?_⟩
  · intro e
    rcases shipLineItem_audit_cases db oid iid r u today now with
      ⟨e0, ht, hf⟩ | ⟨li, hg, ht, hf⟩
    · rw [ht, hf]
    · rw [ht, hf]
      constructor <;> intro hc <;> exact Except.noConfusion hc
  · intro db1 res h
    rcases shipLineItem_audit_cases db oid iid r u today now with
      ⟨e0, ht, hf⟩ | ⟨li, hg, ht, hf⟩
    · rw [ht] at h
      exact Except.noConfusion h
    · rw [ht] at h
      have hpair := Except.ok.inj h
      have hdb1 : db1 = (shipNext db oid iid li r u today now true).1 :=
        (congrArg Prod.fst hpair).symm
      have hres : res = (shipNext db oid iid li r u today now true).2 :=
        (congrArg Prod.snd hpair).symm
      subst hdb1
      subst hres
      exact ⟨(shipNext db oid iid li r u today now false).1,
        by rw [hf]; rfl, rfl, rfl, rfl, rfl, rfl, rfl, rfl, rfl, rfl⟩
  · intro db1 noid h
    rcases createOrder_audit_cases db rc u now with
      ⟨e0, ht, hf⟩ | ⟨ht, hf⟩
    · rw [ht] at h
      exact Except.noConfusion h
    · rw [ht] at h
      have hpair := Except.ok.inj h
      have hdb1 : db1 = (createNext db rc u now true).1 :=
        (congrArg Prod.fst hpair).symm
      have hnoid : noid = (createNext db rc u now true).2 :=
        (congrArg Prod.snd hpair).symm
      subst hdb1
      subst hnoid
      refine ⟨(createNext db rc u now false).1, by rw [hf]; rfl, rfl, rfl,
        rfl, (createNext_audit db rc u now).1, (createNext_audit db rc u now).2⟩

/-- Witness for the amended C8 at the sample shipment. -/
theorem C8_amended_audit_after_commit_witness :
    ∃ db0, shipLineItem dbCreated 0 0 (shipSample 4000 5) 1 5 6 false
        = .ok (db0, resShip40) ∧
      db0.orders = dbShip40.orders ∧ db0.items = dbShip40.items ∧
      db0.shipments = dbShip40.shipments ∧ db0.customers = dbShip40.customers ∧
      db0.parts = dbShip40.parts ∧ db0.nextOrder = dbShip40.nextOrder ∧
      db0.nextItem = dbShip40.nextItem ∧ db0.audit = dbCreated.audit ∧
      dbShip40.audit = dbCreated.audit ++
        [⟨1, "SHIP_ITEM", "order_line_items", 0⟩] :=
  (C8_amended_audit_after_commit dbCreated 0 0 (shipSample 4000 5) 1 5 6
    reqSample).2.1 dbShip40 resShip40 (by decide)

/-- C9: updateOrder changes only po_number, due_date, quoted_ship_date and
notes (plus updated_at) of the addressed order: line items, shipments,
customers, parts and the id counters are untouched, every order keeps its
id, status and customer reference, other orders are untouched, and any
field the request omits keeps its value. -/
theorem C9_updateOrder_frame (db : DB) (oid : Nat) (r : UpdateReq) (u : Nat)
    (now : Int) (a : Bool) (db2 : DB) (o2 : Order)
    (h : updateOrder db oid r u now a = .ok (db2, o2)) :
    db2.items = db.items ∧ db2.shipments = db.shipments ∧
    db2.customers = db.customers ∧ db2.parts = db.parts ∧
    db2.nextOrder = db.nextOrder ∧ db2.nextItem = db.nextItem ∧
    (∀ o' ∈ db2.orders, ∃ o ∈ db.orders, o'.id = o.id ∧
      o'.status = o.status ∧ o'.customer_id = o.customer_id) ∧
    (∀ o ∈ db.orders, o.id ≠ oid → o ∈ db2.orders) ∧
    (∃ o0, db.orders.find? (fun o => o.id == oid) = some o0 ∧
      o2.id = o0.id ∧ o2.status = o0.status ∧
      o2.customer_id = o0.customer_id ∧ o2.updated_at = now ∧
      (r.poNumber = none → o2.po_number = o0.po_number) ∧
      (r.dueDate = none → o2.due_date = o0.due_date) ∧
      (r.quotedShipDate = none →
        o2.quoted_ship_date = o0.quoted_ship_date) ∧
      (r.notes = none → o2.notes = o0.notes)) := by
  obtain ⟨o0, hfound, hout⟩ := upd_ok h
  have hdb2 : db2 = (updNext db oid o0 r u now a).1 := congrArg Prod.fst hout
  have ho2 : o2 = (updNext db oid o0 r u now a).2 := congrArg Prod.snd hout
  subst hdb2
  subst ho2
  refine ⟨updNext_items db oid o0 r u now a, updNext_shipments db oid o0 r u now a,
    updNext_customers db oid o0 r u now a, updNext_parts db oid o0 r u now a,
    updNext_nextOrder db oid o0 r u now a, updNext_nextItem db oid o0 r u now a,
    ?_, ?_, ?_⟩
  · rw [updNext_orders]
    intro o' ho'
    rw [List.mem_map] at ho'
    obtain ⟨o, ho, rfl⟩ := ho'
    exact ⟨o, ho, by split <;> rfl, by split <;> rfl, by split <;> rfl⟩
  · intro o ho hne
    rw [updNext_orders]
    exact List.mem_map.mpr ⟨o, ho, by rw [if_neg (by simpa using hne)]⟩
  · refine ⟨o0, hfound, by rw [updNext_snd]; rfl, by rw [updNext_snd]; rfl,
      by rw [updNext_snd]; rfl, by rw [updNext_snd]; rfl, ?_, ?_, ?_, ?_⟩
    · intro hpn
      rw [updNext_snd]
      show (r.poNumber.map strTrim).getD o0.po_number = o0.po_number
      rw [hpn]
      rfl
    · intro hdd
      rw [updNext_snd]
      show (match r.dueDate with
        | some d => some d
        | none => o0.due_date) = o0.due_date
      rw [hdd]
    · intro hqd
      rw [updNext_snd]
      show (match r.quotedShipDate with
        | some d => some d
        | none => o0.quoted_ship_date) = o0.quoted_ship_date
      rw [hqd]
    · intro hn
      rw [updNext_snd]
      show (match r.notes with
        | some n => some n
        | none => o0.notes) = o0.notes
      rw [hn]

/-- Witness for C9: updating due_date and notes of the sample order leaves
items and shipments untouched and keeps po_number and status. -/
theorem C9_updateOrder_frame_witness :
    dbUpdated.items = dbCreated.items ∧
    dbUpdated.shipments = dbCreated.shipments ∧
    orderUpdated.status = orderCreated.status ∧
    orderUpdated.po_number = orderCreated.po_number := by
  have h := C9_updateOrder_frame dbCreated 0 updSample 1 5 true dbUpdated
    orderUpdated (by decide)
  obtain ⟨o0, hfound, _, hstat, _, _, hpo, _, _, _⟩ := h.2.2.2.2.2.2.2.2
  have ho0 : o0 = orderCreated := by
    have : (dbCreated.orders.find? (fun o => o.id == 0)) = some orderCreated :=
      by decide
    exact Option.some.inj (hfound.symm.trans this)
  exact ⟨h.1, h.2.1, by rw [hstat, ho0], by rw [hpo rfl, ho0]⟩

/-- C10: setInProduction is idempotent on the addressed line item: the
first call sets in_production to true changing only that flag and
updated_at, and a second call returns the same line-item state again save
for the updated_at timestamp; other line items and the shipments are
untouched. -/
theorem C10_setInProduction_idempotent (db : DB) (oid iid u1 u2 : Nat)
    (t1 t2 : Int) (a1 a2 : Bool) (db1 db2 : DB) (i1 i2 : LineItem)
    (h1 : setInProduction db oid iid u1 t1 a1 = .ok (db1, i1))
    (h2 : setInProduction db1 oid iid u2 t2 a2 = .ok (db2, i2)) :
    i1.in_production = true ∧ i2 = { i1 with updated_at := t2 } ∧
    (∃ it, getLineItem db oid iid = some it ∧
      i1 = { it with in_production := true, updated_at := t1 }) ∧
    (∀ j ∈ db.items, j.id ≠ iid → j ∈ db1.items) ∧
    db1.shipments = db.shipments := by
  obtain ⟨it, hfound, hout1⟩ := prod_ok h1
  have hdb1 : db1 = (prodNext db oid iid it u1 t1 a1).1 :=
    congrArg Prod.fst hout1
  have hi1 : i1 = prodUpd t1 it := by
    have h := congrArg Prod.snd hout1
    rw [prodNext_snd] at h
    exact h
  obtain ⟨it2, hfound2, hout2⟩ := prod_ok h2
  have hi2 : i2 = prodUpd t2 it2 := by
    have h := congrArg Prod.snd hout2
    rw [prodNext_snd] at h
    exact h
  have hfind : getLineItem db1 oid iid = some (prodUpd t1 it) := by
    rw [hdb1]
    unfold getLineItem
    rw [prodNext_items,
      find?_upd (prodUpd t1) (fun i => rfl) (fun i => rfl) iid oid db.items]
    show ((getLineItem db oid iid).map fun i =>
      if (i.id == iid) = true then prodUpd t1 i else i) = some (prodUpd t1 it)
    rw [hfound]
    obtain ⟨_, hitid, _⟩ := getLineItem_mem hfound
    simp only [Option.map_some']
    rw [if_pos (show (it.id == iid) = true by simpa using hitid)]
  have hit2 : it2 = prodUpd t1 it :=
    Option.some.inj (hfound2.symm.trans hfind)
  refine ⟨?_, ?_, ⟨it, hfound, ?_⟩, ?_, ?_⟩
  · rw [hi1]
    rfl
  · rw [hi2, hit2, hi1]
    rfl
  · rw [hi1]
    rfl
  · intro j hj hne
    rw [hdb1, prodNext_items]
    exact List.mem_map.mpr ⟨j, hj, by rw [if_neg (by simpa using hne)]⟩
  · rw [hdb1, prodNext_shipments]

/-- Witness for C10: two consecutive setInProduction calls on the sample
line item. -/
theorem C10_setInProduction_idempotent_witness :
    itemProd1.in_production = true ∧
    itemProd2 = { itemProd1 with updated_at := 4 } := by
  have h := C10_setInProduction_idempotent dbCreated 0 0 1 1 3 4 true true
    dbProd1 dbProd2 itemProd1 itemProd2 (by decide) (by decide)
  exact ⟨h.1, h.2.1⟩

end OrderMager
